import Mathlib

/-!
Verification of the playback/retry engine of a terminal internet-radio client.

This file gives a shallow embedding of the relevant parts of the source:
  * `internal/player/player.go` — the retry/reconnect controller
    (`playWithRetry`, `reconnectWithRotation`, `isNonRetryableError`),
    the ICY metadata framing reader (`readNetworkStream`), the volume
    curve (`percentToExponent`), and the status facade
    (`Stop`, `TogglePause`, `GetCurrentTrack`, `NewPlayer`).
  * `internal/station` (shown in `internal/config/config.go`'s bundle) —
    `Station.GetAllPlaylistURLs`.

Side-effecting Go code is embedded as pure state-passing functions; the
outcome of a single `playStreamURL` call (network connect + playback until
failure) is abstracted as an oracle, and loops emit explicit event traces so
that the claims about sleeping, retry counters and attempt ordering can be
stated over the trace.
-/

namespace SomaFM

/-! ### Constants (player.go lines 25–37) -/

def MaxRetries : Nat := 3
/-- `RetryDelay = time.Second * 2`, in milliseconds. -/
def RetryDelayMs : Nat := 2000
def VolumeCurveExponent : ℝ := 0.5
def MinVolumeDB : ℝ := -10.0
/-- `MaxPlaybackDelay = 5 * time.Second`, in milliseconds. -/
def MaxPlaybackDelayMs : Int := 5000
def SampleChannelSize : Nat := 8192
def MaxErrorsToKeep : Nat := 10

/-! ### PlayerState (player.go lines 39–48) -/

inductive PlayerState
  | idle
  | buffering
  | playing
  | paused
  | reconnecting
  | error
  deriving DecidableEq, Repr

/-! ### Volume curve (player.go lines 342–353)

`percentToExponent` uses Go `float64`; we model it over the reals, with
`math.Pow(x, 0.5)` as the real power `x ^ (0.5 : ℝ)`. -/

noncomputable def percentToExponent (p : ℝ) : ℝ :=
  if p ≤ 0 then MinVolumeDB
  else if 100 ≤ p then 0
  else (1 - (p / 100) ^ VolumeCurveExponent) * MinVolumeDB

/-! ### Station model (internal/station/station.go) -/

structure Playlist where
  url : String
  format : String
  quality : String
  deriving DecidableEq, Repr

structure Station where
  title : String
  playlists : List Playlist
  deriving DecidableEq, Repr

/-- `Station.GetAllPlaylistURLs`: one pass partitions the playlists into
MP3-highest, other-MP3 and non-MP3 buckets (order preserved inside each
bucket), and the result is their concatenation. -/
def GetAllPlaylistURLs (s : Station) : List String :=
  let mp3Highest :=
    (s.playlists.filter (fun pl => pl.format == "mp3" && pl.quality == "highest")).map (·.url)
  let mp3Other :=
    (s.playlists.filter (fun pl => pl.format == "mp3" && !(pl.quality == "highest"))).map (·.url)
  let other :=
    (s.playlists.filter (fun pl => !(pl.format == "mp3"))).map (·.url)
  mp3Highest ++ mp3Other ++ other

/-! ### Error taxonomy and failure classification (player.go lines 653–671)

`httpStatusError` is the only error type `isNonRetryableError` inspects;
every other error produced by `playStreamURL` (transport failure, decode
failure, read timeout, unexpected stream end) falls through to `false`. -/

inductive PlayErr
  | httpStatus (code : Nat)
  | connFailed
  | decodeFailed
  | readTimeout
  | streamEnded
  deriving DecidableEq, Repr

def isNonRetryableError : PlayErr → Bool
  | .httpStatus c => c == 401 || c == 403 || c == 404 || c == 410
  | _ => false

/-! ### Retry loop of `playWithRetry` (player.go lines 497–606)

One call to `playStreamURL` is abstracted as an `Outcome`:
  * `success`  — the call returned `nil`;
  * `canceled` — the error is `context.Canceled`;
  * `fail wasPlaying e` — the call failed with error `e`, and `wasPlaying`
    records whether `GetState() == StatePlaying` held afterwards (the stream
    connected and played before dropping).

The loops emit an event trace: `connect a` for each connection attempt, and
the `setState(Reconnecting)` / `setRetryInfo` / `time.Sleep(RetryDelay)`
prologue run at the top of every retry iteration (`attempt > 0`). -/

inductive Outcome
  | success
  | canceled
  | fail (wasPlaying : Bool) (e : PlayErr)
  deriving DecidableEq, Repr

inductive Ev
  | setStateEv (s : PlayerState)
  | setRetry (attempt : Nat) (maxR : Nat)
  | sleep (ms : Nat)
  | connect (attempt : Nat)
  | fetch (playlistIdx : Nat)
  deriving DecidableEq, Repr

/-- How the per-URL attempt loop (player.go lines 539–585) exits. -/
inductive UrlExit
  | played      -- `playStreamURL` returned nil: `return nil`
  | canceled    -- `context.Canceled`: `return context.Canceled`
  | rotation    -- state was `Playing`: `break playlists` into rotation mode
  | nextUrl     -- non-retryable error: `break` to the next stream URL
  | exhausted   -- attempt budget spent: fall off the `for attempt` loop
  deriving DecidableEq, Repr

/-- Events run at the top of the iteration for `attempt`, followed by the
connection attempt itself. -/
def attemptChunk (maxR attempt : Nat) : List Ev :=
  (if 0 < attempt then
    [Ev.setStateEv .reconnecting, Ev.setRetry attempt maxR, Ev.sleep RetryDelayMs]
  else []) ++ [Ev.connect attempt]

/-- `for attempt := 0; attempt <= maxRetries; attempt++ { ... }` for a single
stream URL. `fuel` counts the iterations left, i.e. `maxR + 1 - attempt`;
`oracle attempt` is the result of `playStreamURL` on that iteration. -/
def urlLoopGo (oracle : Nat → Outcome) (maxR : Nat) (attempt : Nat) :
    Nat → List Ev × UrlExit
  | 0 => ([], .exhausted)
  | _fuel + 1 =>
    let evs := attemptChunk maxR attempt
    match oracle attempt with
    | .success => (evs, .played)
    | .canceled => (evs, .canceled)
    | .fail true _ => (evs, .rotation)
    | .fail false e =>
      if isNonRetryableError e then (evs, .nextUrl)
      else
        let r := urlLoopGo oracle maxR (attempt + 1) _fuel
        (evs ++ r.1, r.2)

/-- The whole attempt loop for one stream URL, starting at `attempt = 0`. -/
def urlLoop (oracle : Nat → Outcome) (maxR : Nat) : List Ev × UrlExit :=
  urlLoopGo oracle maxR 0 (maxR + 1)

def countConnects (evs : List Ev) : Nat :=
  (evs.filter (fun e => match e with | .connect _ => true | _ => false)).length

/-- Result of the `for urlIdx, streamURL := range streamURLs` loop
(player.go lines 538–586): `none` means every URL was exhausted and the
playlist loop continues. -/
inductive UrlsRes
  | played
  | canceled
  | rotation
  deriving DecidableEq, Repr

/-- Loop over the resolved stream URLs of one playlist; `oracle uIdx` is the
attempt oracle for the URL at index `uIdx`. -/
def urlsLoop (oracle : Nat → Nat → Outcome) (maxR : Nat) :
    List String → Nat → List Ev × Option UrlsRes
  | [], _ => ([], none)
  | _u :: rest, uIdx =>
    let r := urlLoop (oracle uIdx) maxR
    match r.2 with
    | .played => (r.1, some .played)
    | .canceled => (r.1, some .canceled)
    | .rotation => (r.1, some .rotation)
    | .nextUrl =>
      let t := urlsLoop oracle maxR rest (uIdx + 1)
      (r.1 ++ t.1, t.2)
    | .exhausted =>
      let t := urlsLoop oracle maxR rest (uIdx + 1)
      (r.1 ++ t.1, t.2)

/-- Result of the labelled `playlists:` loop (player.go lines 520–587).
`rotation urls` records `reconnectStreamURLs` captured by `break playlists`. -/
inductive PlaylistsRes
  | played
  | canceled
  | rotation (urls : List String)
  | exhausted
  deriving DecidableEq, Repr

/-- Loop over the station's playlist URLs. `fetch pIdx` abstracts
`fetchAndParsePLS` for the playlist at index `pIdx` (`none` = fetch/parse
error, logged and skipped); `oracle pIdx uIdx attempt` abstracts
`playStreamURL`. -/
def playlistsLoop (fetch : Nat → Option (List String))
    (oracle : Nat → Nat → Nat → Outcome) (maxR : Nat) :
    List String → Nat → List Ev × PlaylistsRes
  | [], _ => ([], .exhausted)
  | _pl :: rest, pIdx =>
    match fetch pIdx with
    | none =>
      let t := playlistsLoop fetch oracle maxR rest (pIdx + 1)
      (Ev.fetch pIdx :: t.1, t.2)
    | some urls =>
      let r := urlsLoop (oracle pIdx) maxR urls 0
      match r.2 with
      | some .played => (Ev.fetch pIdx :: r.1, .played)
      | some .canceled => (Ev.fetch pIdx :: r.1, .canceled)
      | some .rotation => (Ev.fetch pIdx :: r.1, .rotation urls)
      | none =>
        let t := playlistsLoop fetch oracle maxR rest (pIdx + 1)
        (Ev.fetch pIdx :: (r.1 ++ t.1), t.2)

/-! ### `reconnectWithRotation` (player.go lines 609–651)

The loop is
`for retryCount := 1; retryCount <= maxRetries; retryCount++`; each iteration
attempts `streamURLs[(retryCount-1) % len(streamURLs)]`, and when the failed
attempt left the state at `Playing` the counter is reset (`retryCount = 0`,
which the loop increment turns into `1`). The sequence of `playStreamURL`
results is supplied as a list `outs`, one entry consumed per attempt; if the
list runs out while the loop would continue we stop with `fuelOut` (the real
loop would keep calling `playStreamURL`). -/

inductive RotOutcome
  | success
  | canceled
  | drop (wasPlaying : Bool)
  deriving DecidableEq, Repr

/-- One rotation attempt: the `retryCount` passed to `setRetryInfo` and the
index into `streamURLs` that was dialled. -/
structure RotEv where
  rc : Nat
  urlIdx : Nat
  deriving DecidableEq, Repr

inductive RotExit
  | success
  | canceled
  | exhausted
  | fuelOut
  deriving DecidableEq, Repr

def rotationGo (numUrls maxR : Nat) :
    List RotOutcome → Nat → List (RotEv × RotOutcome) × RotExit
  | [], rc => if maxR < rc then ([], .exhausted) else ([], .fuelOut)
  | o :: rest, rc =>
    if maxR < rc then ([], .exhausted)
    else
      let ev : RotEv := ⟨rc, (rc - 1) % numUrls⟩
      match o with
      | .success => ([(ev, o)], .success)
      | .canceled => ([(ev, o)], .canceled)
      | .drop true =>
        let t := rotationGo numUrls maxR rest 1
        ((ev, o) :: t.1, t.2)
      | .drop false =>
        let t := rotationGo numUrls maxR rest (rc + 1)
        ((ev, o) :: t.1, t.2)

/-- `reconnectWithRotation` over the URL list, starting at `retryCount = 1`. -/
def rotationModel (urls : List String) (maxR : Nat) (outs : List RotOutcome) :
    List (RotEv × RotOutcome) × RotExit :=
  rotationGo urls.length maxR outs 1

/-! ### Player status facade state

The mutable fields of `Player` (player.go lines 119–154) that the verified
claims observe, with `time.Time` fields reduced to "is set" flags and
durations carried separately. -/

structure StreamInfo where
  format : String
  quality : String
  bitrate : Nat
  sampleRate : Nat
  deriving DecidableEq, Repr

instance : Inhabited StreamInfo := ⟨⟨"", "", 0, 0⟩⟩

structure PlayerSt where
  state : PlayerState
  lastError : String
  retryAttempt : Nat
  maxRetriesF : Nat
  currentTrack : String
  cancelFuncSet : Bool
  isPlaying : Bool
  isPaused : Bool
  streamAlive : Bool
  sessionStartSet : Bool
  streamInfo : StreamInfo
  volumePercent : Int
  deriving DecidableEq, Repr

/-- `NewPlayer` (player.go lines 165–194): explicit fields from the composite
literal, everything else the Go zero value — in particular
`state = StateIdle` (`iota` value 0). -/
def newPlayerModel : PlayerSt where
  state := .idle
  lastError := ""
  retryAttempt := 0
  maxRetriesF := 0
  currentTrack := ""
  cancelFuncSet := false
  isPlaying := false
  isPaused := false
  streamAlive := false
  sessionStartSet := false
  streamInfo := default
  volumePercent := -1

/-- `Stop` (player.go lines 212–243). When no cancel function is registered
and nothing is playing it returns at once without touching the state;
otherwise it cancels, clears the playback flags and resets the status fields
to `Idle`. -/
def stopModel (p : PlayerSt) : PlayerSt :=
  if ¬p.cancelFuncSet ∧ ¬p.isPlaying then p
  else
    { p with
      cancelFuncSet := false
      isPlaying := false
      isPaused := false
      streamAlive := false
      state := .idle
      sessionStartSet := false
      streamInfo := default }

/-- `GetCurrentTrack` (player.go lines 367–375). -/
def WaitingTrackMsg : String := "Waiting for track info..."

def getCurrentTrackModel (currentTrack : String) : String :=
  if currentTrack = "" then WaitingTrackMsg else currentTrack

/-! ### `playWithRetry` top level (player.go lines 497–606) -/

inductive PlayResult
  | ok            -- `return nil`
  | canceledErr   -- `return context.Canceled`
  | noPlaylistsErr  -- "no playlists available for station: ..."
  | failedErr     -- terminal failure after exhaustion
  | fuelOut       -- rotation outcome list ran out (model artefact)
  deriving DecidableEq, Repr

/-- State updates made by `playWithRetry` before entering the playlist loop
(player.go lines 505–507): `setState(StateBuffering)`,
`setRetryInfo(0, maxRetries)`, `setCurrentTrack("")`. -/
def playEntryState (p : PlayerSt) (maxR : Nat) : PlayerSt :=
  { p with state := .buffering, retryAttempt := 0, maxRetriesF := maxR, currentTrack := "" }

/-- `playWithRetry`: the empty-endpoint guard, the playlist/URL/attempt loops
and the hand-off to `reconnectWithRotation`. Returns the resulting status
fields, the event trace and the classified return value. -/
def playWithRetryModel (p : PlayerSt) (s : Station) (fetch : Nat → Option (List String))
    (oracle : Nat → Nat → Nat → Outcome) (rotOuts : List RotOutcome) (maxR : Nat) :
    PlayerSt × List Ev × PlayResult :=
  let playlistURLs := GetAllPlaylistURLs s
  if playlistURLs.isEmpty then
    ({ p with state := .error, lastError := "No playlists available" }, [], .noPlaylistsErr)
  else
    let p1 := playEntryState p maxR
    let r := playlistsLoop fetch oracle maxR playlistURLs 0
    match r.2 with
    | .played => (p1, r.1, .ok)
    | .canceled => (p1, r.1, .canceledErr)
    | .rotation urls =>
      let rr := rotationModel urls maxR rotOuts
      match rr.2 with
      | .success => (p1, r.1, .ok)
      | .canceled => (p1, r.1, .canceledErr)
      | .exhausted =>
        ({ p1 with state := .error, lastError := "Connection failed" }, r.1, .failedErr)
      | .fuelOut => (p1, r.1, .fuelOut)
    | .exhausted =>
      ({ p1 with state := .error, lastError := "Connection failed" }, r.1, .failedErr)

/-- `Play` (player.go lines 493–495) calls `playWithRetry(s, MaxRetries)`. -/
def playModel (p : PlayerSt) (s : Station) (fetch : Nat → Option (List String))
    (oracle : Nat → Nat → Nat → Outcome) (rotOuts : List RotOutcome) :
    PlayerSt × List Ev × PlayResult :=
  playWithRetryModel p s fetch oracle rotOuts MaxRetries

/-! ### `TogglePause` (player.go lines 245–288) and `Reconnect` (301–319)

`time.Since(p.pausedAt)` is supplied as `elapsedMs`. The Go method guards on
`p.ctrl == nil || !p.isPlaying`; when resuming it first adds the elapsed
pause to `totalPausedMs` and, if the running total exceeds
`MaxPlaybackDelay`, zeroes the accounting and spawns `Reconnect()` instead
of unpausing. Otherwise it flips `ctrl.Paused` under the speaker lock and
records `pausedAt` / the state transition. -/

structure PauseSt where
  ctrlSet : Bool
  isPlaying : Bool
  isPaused : Bool
  ctrlPaused : Bool
  pausedAtSet : Bool
  totalPausedMs : Int
  state : PlayerState
  hasStation : Bool
  deriving DecidableEq, Repr

inductive PauseAction
  | noop
  | reconnect
  | pausedInPlace
  | resumedInPlace
  deriving DecidableEq, Repr

/-- The flip half of `TogglePause` (player.go lines 268–285). -/
def togglePauseFlip (p : PauseSt) : PauseSt × PauseAction :=
  let newPaused := !p.ctrlPaused
  if newPaused then
    ({ p with ctrlPaused := true, isPaused := true, pausedAtSet := true, state := .paused },
      .pausedInPlace)
  else
    ({ p with ctrlPaused := false, isPaused := false, pausedAtSet := false, state := .playing },
      .resumedInPlace)

def togglePause (p : PauseSt) (elapsedMs : Int) : PauseSt × PauseAction :=
  if ¬p.ctrlSet ∨ ¬p.isPlaying then (p, .noop)
  else if p.isPaused ∧ p.pausedAtSet then
    let total := p.totalPausedMs + elapsedMs
    if total > MaxPlaybackDelayMs then
      ({ p with totalPausedMs := 0, pausedAtSet := false }, .reconnect)
    else
      togglePauseFlip { p with totalPausedMs := total }
  else
    togglePauseFlip p

/-- The entry of `Reconnect` (player.go lines 301–311): with a current
station it sets `StateReconnecting` (and then runs `Stop` + `Play`);
without one it returns unchanged. -/
def reconnectEnter (p : PauseSt) : PauseSt :=
  if p.hasStation then { p with state := .reconnecting } else p

/-! ### ICY metadata framing (player.go lines 871–913)

Go strings are byte sequences and `strings.Index` searches byte-wise; the
metadata here is ASCII, so bytes are modelled as `Char`s. The length byte
read after each `icyMetaint`-byte audio chunk is modelled as a `Char` too
(`Char.toNat` plays the byte value), so a chunk of the wire stream is a
single `List Char`. -/

/-- `"StreamTitle='"` — `Char.ofNat 39` is the single-quote character. -/
def streamTitleMark : List Char := "StreamTitle=".toList ++ [Char.ofNat 39]

/-- `"';"`, the terminator scanned for after the mark. -/
def titleEndMark : List Char := [Char.ofNat 39, ';']

/-- `strings.Index pat s` (first match position, `none` for Go's `-1`). -/
def subIndex (pat : List Char) : List Char → Option Nat
  | [] => if pat.isEmpty then some 0 else none
  | c :: rest =>
    if pat.isPrefixOf (c :: rest) then some 0
    else (subIndex pat rest).map (· + 1)

/-- The `StreamTitle` scan on one metadata block (player.go lines 904–912):
`strings.Contains`/`strings.Index` for the mark, then the first `"';"` in
the remainder; published only when `end > 0`. -/
def extractTitle (meta : List Char) : Option (List Char) :=
  match subIndex streamTitleMark meta with
  | none => none
  | some i =>
    let start := i + streamTitleMark.length
    match subIndex titleEndMark (meta.drop start) with
    | none => none
    | some e => if 0 < e then some ((meta.drop start).take e) else none

/-- One iteration of the `readNetworkStream` loop with `icyMetaint > 0`
(player.go lines 859–913): copy `icyMetaint` audio bytes to the decoder
pipe, read the length byte, `metaLen = 16 * lengthByte`; blocks longer than
4080 are skipped, positive-length blocks are scanned for a title. Returns
`(audio bytes forwarded, track after the chunk, rest of the stream)`, or
`none` when the stream ends mid-chunk (EOF paths). -/
def processChunk (icyMetaint : Nat) (s : List Char) (currentTrack : List Char) :
    Option (List Char × List Char × List Char) :=
  if s.length < icyMetaint then none
  else
    let audio := s.take icyMetaint
    match s.drop icyMetaint with
    | [] => none
    | lenByte :: rest =>
      let metaLen := 16 * lenByte.toNat
      if 4080 < metaLen then some (audio, currentTrack, rest.drop metaLen)
      else if metaLen = 0 then some (audio, currentTrack, rest)
      else if rest.length < metaLen then none
      else
        let meta := rest.take metaLen
        let newTrack :=
          match extractTitle meta with
          | some t => t
          | none => currentTrack
        some (audio, newTrack, rest.drop metaLen)

/-! ## Theorems -/

/-- C5: for a station whose resolved playlist-URL list is empty,
`playWithRetry` fails immediately with the NoPlaylists error: no playlist
fetch and no stream connection happens (the event trace is empty), the state
becomes `Error` and the last error reads "No playlists available". -/
theorem playNoPlaylists_spec (p : PlayerSt) (s : Station)
    (fetch : Nat → Option (List String)) (oracle : Nat → Nat → Nat → Outcome)
    (rotOuts : List RotOutcome) (maxR : Nat)
    (h : GetAllPlaylistURLs s = []) :
    playWithRetryModel p s fetch oracle rotOuts maxR
      = ({ p with state := .error, lastError := "No playlists available" },
         [], .noPlaylistsErr) := by
  simp [playWithRetryModel, h]

/-- Witness for C5 at a concrete station with no playlists. -/
theorem playNoPlaylists_spec_witness :
    playWithRetryModel newPlayerModel ⟨"Empty", []⟩ (fun _ => none)
        (fun _ _ _ => Outcome.success) [] MaxRetries
      = ({ newPlayerModel with state := .error, lastError := "No playlists available" },
         [], .noPlaylistsErr) :=
  playNoPlaylists_spec _ _ _ _ _ _ rfl

/-- C9 (as stated) is false: run `Play` on a station with no playlists, so
the player ends in the `Error` state with no cancel function registered and
nothing playing; `Stop()` then returns through its early-exit guard
(player.go line 215) without resetting the state, which stays `Error`. -/
theorem stopIdle_counterexample :
    (stopModel (playModel newPlayerModel ⟨"Empty", []⟩ (fun _ => none)
        (fun _ _ _ => Outcome.success) []).1).state = PlayerState.error
    ∧ PlayerState.error ≠ PlayerState.idle := by
  exact ⟨rfl, by decide⟩

/-- C9 amended: a fresh player is in `Idle`; `Stop()` leaves the player in
`Idle` whenever a cancel function is registered or playback is active when it
is called; in the remaining case (`cancelFunc == nil && !isPlaying`) `Stop()`
is a no-op and the state is unchanged. -/
theorem stopIdle_amended :
    newPlayerModel.state = PlayerState.idle
    ∧ (∀ p : PlayerSt, p.cancelFuncSet = true ∨ p.isPlaying = true →
        (stopModel p).state = PlayerState.idle)
    ∧ (∀ p : PlayerSt, p.cancelFuncSet = false → p.isPlaying = false →
        stopModel p = p) := by
  refine ⟨rfl, ?_, ?_⟩
  · intro p h
    rcases h with h | h <;> simp [stopModel, h]
  · intro p h1 h2
    simp [stopModel, h1, h2]

/-- Witness for C9 amended: stopping a player with an active cancel function
lands in `Idle`. -/
theorem stopIdle_amended_witness :
    (stopModel { newPlayerModel with cancelFuncSet := true }).state = PlayerState.idle :=
  stopIdle_amended.2.1 _ (Or.inl rfl)

/-- C10: with no published track `GetCurrentTrack()` returns the sentinel
"Waiting for track info..." rather than the empty string — in particular
right after `playWithRetry` resets the track to `""` on entry — and returns
the raw published title once one is set. -/
theorem currentTrackFallback_spec :
    getCurrentTrackModel "" = WaitingTrackMsg
    ∧ (∀ t : String, t ≠ "" → getCurrentTrackModel t = t)
    ∧ (∀ (p : PlayerSt) (maxR : Nat),
        getCurrentTrackModel (playEntryState p maxR).currentTrack = WaitingTrackMsg) := by
  refine ⟨rfl, ?_, ?_⟩
  · intro t ht
    simp [getCurrentTrackModel, ht]
  · intro p maxR
    rfl

/-- Witness for C10 at a concrete published title. -/
theorem currentTrackFallback_spec_witness :
    getCurrentTrackModel "Artist - Song" = "Artist - Song" :=
  currentTrackFallback_spec.2.1 _ (by decide)

/-- C6: over `[0, 100]` the volume curve is monotonically non-decreasing,
takes the floor value `MinVolumeDB = -10` at `0`, and `0` (unity gain,
0 dB exponent) at `100`. -/
theorem volumeCurve_spec :
    (∀ p q : ℝ, 0 ≤ p → p ≤ q → q ≤ 100 →
        percentToExponent p ≤ percentToExponent q)
    ∧ percentToExponent 0 = MinVolumeDB
    ∧ percentToExponent 100 = 0 := by
  refine ⟨?_, ?_, ?_⟩
  · intro p q hp hpq hq
    unfold percentToExponent VolumeCurveExponent MinVolumeDB
    by_cases hp0 : p ≤ 0
    · rw [if_pos hp0]
      by_cases hq0 : q ≤ 0
      · rw [if_pos hq0]
      · rw [if_neg hq0]
        by_cases hq100 : (100:ℝ) ≤ q
        · rw [if_pos hq100]; norm_num
        · rw [if_neg hq100]
          have hs : (0:ℝ) ≤ (q / 100) ^ (0.5:ℝ) :=
            Real.rpow_nonneg (div_nonneg (by linarith) (by norm_num)) _
          nlinarith
    · rw [if_neg hp0]
      have hppos : 0 < p := lt_of_not_le hp0
      have hq0 : ¬ q ≤ 0 := by linarith
      by_cases hp100 : (100:ℝ) ≤ p
      · have hq100 : (100:ℝ) ≤ q := le_trans hp100 hpq
        rw [if_pos hp100, if_neg hq0, if_pos hq100]
      · rw [if_neg hp100]
        have hplt : p < 100 := lt_of_not_le hp100
        by_cases hq100 : (100:ℝ) ≤ q
        · rw [if_neg hq0, if_pos hq100]
          have hs1 : (p / 100) ^ (0.5:ℝ) ≤ 1 :=
            Real.rpow_le_one (div_nonneg (by linarith) (by norm_num))
              (by linarith) (by norm_num)
          nlinarith
        · rw [if_neg hq0, if_neg hq100]
          have hmono : (p / 100) ^ (0.5:ℝ) ≤ (q / 100) ^ (0.5:ℝ) :=
            Real.rpow_le_rpow (div_nonneg (by linarith) (by norm_num))
              (by linarith) (by norm_num)
          nlinarith
  · simp [percentToExponent]
  · unfold percentToExponent
    rw [if_neg (by norm_num), if_pos (by norm_num)]

/-- Witness for C6: monotonicity applied at 30 ≤ 60, plus the floor value
at 0. -/
theorem volumeCurve_spec_witness :
    percentToExponent 30 ≤ percentToExponent 60
    ∧ percentToExponent 0 = MinVolumeDB :=
  ⟨volumeCurve_spec.1 30 60 (by norm_num) (by norm_num) (by norm_num),
   volumeCurve_spec.2.1⟩

/-- C8: resuming from pause via `TogglePause` when the accumulated paused
time (running total plus the current pause) exceeds the 5-second threshold
zeroes the pause accounting and performs a full reconnect, whose first step
is the `Reconnecting` state; when the accumulated paused time is at or below
the threshold, it unpauses in place (state back to `Playing`). -/
theorem togglePauseReconnect_spec (p : PauseSt) (elapsedMs : Int)
    (hctrl : p.ctrlSet = true) (hplay : p.isPlaying = true)
    (hpaused : p.isPaused = true) (hat : p.pausedAtSet = true)
    (hcp : p.ctrlPaused = true) (hst : p.hasStation = true) :
    (p.totalPausedMs + elapsedMs > MaxPlaybackDelayMs →
      togglePause p elapsedMs
        = ({ p with totalPausedMs := 0, pausedAtSet := false }, .reconnect)
      ∧ (reconnectEnter { p with totalPausedMs := 0, pausedAtSet := false }).state
          = PlayerState.reconnecting)
    ∧ (p.totalPausedMs + elapsedMs ≤ MaxPlaybackDelayMs →
      togglePause p elapsedMs
        = ({ p with
              totalPausedMs := p.totalPausedMs + elapsedMs
              ctrlPaused := false
              isPaused := false
              pausedAtSet := false
              state := .playing },
           .resumedInPlace)) := by
  constructor
  · intro hgt
    constructor
    · simp [togglePause, hctrl, hplay, hpaused, hat, hgt]
    · simp [reconnectEnter, hst]
  · intro hle
    have hngt : ¬ p.totalPausedMs + elapsedMs > MaxPlaybackDelayMs := not_lt.mpr hle
    simp [togglePause, togglePauseFlip, hctrl, hplay, hpaused, hat, hcp, hngt]

/-- Witness for C8: 4 s already accumulated plus a 2 s pause exceeds the 5 s
threshold and reconnects. -/
theorem togglePauseReconnect_spec_witness :
    togglePause
        { ctrlSet := true
          isPlaying := true
          isPaused := true
          ctrlPaused := true
          pausedAtSet := true
          totalPausedMs := 4000
          state := .paused
          hasStation := true } 2000
      = ({ ctrlSet := true
           isPlaying := true
           isPaused := true
           ctrlPaused := true
           pausedAtSet := false
           totalPausedMs := 0
           state := .paused
           hasStation := true }, .reconnect) :=
  ((togglePauseReconnect_spec _ 2000 rfl rfl rfl rfl rfl rfl).1 (by decide)).1

/-! ### Structure of the per-URL attempt loop (C1, C4) -/

/-- The concatenation of the per-attempt event chunks for `k` consecutive
attempts starting at attempt `a`. -/
def chunksFrom (maxR a : Nat) : Nat → List Ev
  | 0 => []
  | k + 1 => attemptChunk maxR a ++ chunksFrom maxR (a + 1) k

lemma countConnects_append (l1 l2 : List Ev) :
    countConnects (l1 ++ l2) = countConnects l1 + countConnects l2 := by
  simp [countConnects, List.filter_append]

lemma countConnects_attemptChunk (maxR a : Nat) :
    countConnects (attemptChunk maxR a) = 1 := by
  by_cases h : 0 < a <;> simp [attemptChunk, countConnects, h]

lemma countConnects_chunksFrom (maxR : Nat) :
    ∀ (k a : Nat), countConnects (chunksFrom maxR a k) = k := by
  intro k
  induction k with
  | zero => intro a; simp [chunksFrom, countConnects]
  | succ k ih =>
    intro a
    simp [chunksFrom, countConnects_append, countConnects_attemptChunk, ih]
    omega

/-- Every run of the per-URL attempt loop produces the event chunks of some
number `k ≤ fuel` of consecutive attempts starting at `attempt`. -/
lemma urlLoopGo_chunks (oracle : Nat → Outcome) (maxR : Nat) :
    ∀ (fuel a : Nat), ∃ k ≤ fuel,
      (urlLoopGo oracle maxR a fuel).1 = chunksFrom maxR a k := by
  intro fuel
  induction fuel with
  | zero =>
    intro a
    exact ⟨0, Nat.le_refl 0, by simp [urlLoopGo, chunksFrom]⟩
  | succ f ih =>
    intro a
    cases hor : oracle a with
    | success =>
      exact ⟨1, by omega, by simp [urlLoopGo, hor, chunksFrom]⟩
    | canceled =>
      exact ⟨1, by omega, by simp [urlLoopGo, hor, chunksFrom]⟩
    | fail wasPlaying e =>
      cases wasPlaying with
      | true =>
        exact ⟨1, by omega, by simp [urlLoopGo, hor, chunksFrom]⟩
      | false =>
        by_cases hnr : isNonRetryableError e = true
        · exact ⟨1, by omega, by simp [urlLoopGo, hor, hnr, chunksFrom]⟩
        · obtain ⟨k, hk, heq⟩ := ih (a + 1)
          refine ⟨k + 1, by omega, ?_⟩
          simp [urlLoopGo, hor, hnr, chunksFrom, heq]

/-- C1 amended: for each resolved URL the controller makes at most
`maxAttempts + 1` connection attempts (one initial attempt plus up to
`maxAttempts` retries — with the default `MaxRetries = 3` that is 4
attempts, not 3), and the trace decomposes into per-attempt chunks in which
every retry is immediately preceded by the `Reconnecting` transition, the
retry-counter update, and the fixed `RetryDelay = 2 s` sleep. -/
theorem connectAttempts_amended (oracle : Nat → Outcome) (maxR : Nat) :
    ∃ k ≤ maxR + 1,
      (urlLoop oracle maxR).1 = chunksFrom maxR 0 k
      ∧ countConnects (urlLoop oracle maxR).1 = k := by
  obtain ⟨k, hk, heq⟩ := urlLoopGo_chunks oracle maxR (maxR + 1) 0
  refine ⟨k, hk, heq, ?_⟩
  rw [show urlLoop oracle maxR = urlLoopGo oracle maxR 0 (maxR + 1) from rfl,
    heq, countConnects_chunksFrom]

/-- C1 as stated is false: with every attempt failing transiently the loop
`for attempt := 0; attempt <= maxRetries; attempt++` (player.go line 539)
dials the same URL `MaxRetries + 1 = 4` times, exceeding the claimed bound
of `maxAttempts = 3` attempts per URL. -/
theorem connectAttempts_counterexample :
    countConnects (urlLoop (fun _ => Outcome.fail false PlayErr.connFailed) MaxRetries).1 = 4
    ∧ ¬ countConnects (urlLoop (fun _ => Outcome.fail false PlayErr.connFailed) MaxRetries).1
        ≤ MaxRetries := by
  decide

/-- C4: an error is classified non-retryable exactly when it is an HTTP
status error with code 401, 403, 404 or 410; and when a connection attempt
fails with such an error (without having reached `Playing`), the per-URL
loop stops right after that attempt — the trace ends at that `connect`
event, so no inter-attempt sleep happens and the exposed retry counter is
not advanced — and exits towards the next resolved URL. -/
theorem nonRetryable_spec :
    (∀ e : PlayErr, isNonRetryableError e = true
        ↔ ∃ c, e = PlayErr.httpStatus c ∧ (c = 401 ∨ c = 403 ∨ c = 404 ∨ c = 410))
    ∧ (∀ (oracle : Nat → Outcome) (maxR a fuel : Nat) (e : PlayErr),
        oracle a = Outcome.fail false e → isNonRetryableError e = true →
        urlLoopGo oracle maxR a (fuel + 1) = (attemptChunk maxR a, UrlExit.nextUrl)) := by
  constructor
  · intro e
    cases e <;> simp [isNonRetryableError]
    tauto
  · intro oracle maxR a fuel e ho hnr
    simp [urlLoopGo, ho, hnr]

/-- Witness for C4: an HTTP 404 on the first attempt ends the URL loop at
once with the `nextUrl` exit. -/
theorem nonRetryable_spec_witness :
    urlLoopGo (fun _ => Outcome.fail false (PlayErr.httpStatus 404)) MaxRetries 0 (MaxRetries + 1)
      = (attemptChunk MaxRetries 0, UrlExit.nextUrl) :=
  nonRetryable_spec.2 _ MaxRetries 0 MaxRetries _ rfl rfl

/-! ### Structure of `reconnectWithRotation` (C2, C3) -/

/-- With every attempt failing without recovery (`drop false`), the rotation
loop makes attempts `rc, rc+1, …` dialling URL `(counter - 1) % n`, until
either the counter passes `maxR` (`exhausted`) or the supplied outcome list
runs out (`fuelOut`). -/
lemma rotationGo_allFail (n maxR : Nat) :
    ∀ (outs : List RotOutcome), (∀ o ∈ outs, o = RotOutcome.drop false) →
    ∀ rc, 1 ≤ rc →
      rotationGo n maxR outs rc
        = ((List.range (min (maxR + 1 - rc) outs.length)).map
             (fun j => (⟨rc + j, (rc + j - 1) % n⟩, RotOutcome.drop false)),
           if maxR + 1 - rc ≤ outs.length then .exhausted else .fuelOut) := by
  intro outs
  induction outs with
  | nil =>
    intro _ rc _
    simp only [rotationGo, List.length_nil, Nat.min_zero, List.range_zero, List.map_nil]
    by_cases h : maxR < rc
    · rw [if_pos h, if_pos (by omega)]
    · rw [if_neg h, if_neg (by omega)]
  | cons o rest ih =>
    intro hall rc h1
    have ho : o = RotOutcome.drop false := hall o (List.mem_cons_self o rest)
    subst ho
    have hrest : ∀ o ∈ rest, o = RotOutcome.drop false :=
      fun o hm => hall o (List.mem_cons_of_mem _ hm)
    by_cases h : maxR < rc
    · have h0 : maxR + 1 - rc = 0 := by omega
      simp only [rotationGo, if_pos h, h0, Nat.zero_min, List.range_zero, List.map_nil]
      rw [if_pos (by omega)]
    · simp only [rotationGo, if_neg h]
      rw [ih hrest (rc + 1) (by omega)]
      have hsub : maxR + 1 - (rc + 1) = maxR - rc := by omega
      have hmin : min (maxR + 1 - rc) (rest.length + 1) = min (maxR - rc) rest.length + 1 := by
        omega
      rw [hsub, List.length_cons, hmin, List.range_succ_eq_map, List.map_cons, List.map_map]
      simp only [Prod.mk.injEq]
      refine ⟨?_, ?_⟩
      · congr 1
        apply List.map_congr_left
        intro j _
        have hj : rc + 1 + j = rc + (j + 1) := by omega
        simp [Function.comp_apply, hj]
      · by_cases hc : maxR - rc ≤ rest.length
        · rw [if_pos hc, if_pos (by omega)]
        · rw [if_neg hc, if_neg (by omega)]

/-- C2 as stated is false: with two resolved URLs, `maxAttempts = MaxRetries
= 3` and a supply of six failing outcomes, the rotation gives up
(`exhausted`) after only 3 total attempts — `maxAttempts` attempts in all —
not after `maxAttempts` full cycles over the URL set (which would be
`3 * 2 = 6` attempts, one per URL per cycle). -/
theorem rotationCycles_counterexample :
    (rotationModel ["u0", "u1"] MaxRetries (List.replicate 6 (RotOutcome.drop false))).1.length = 3
    ∧ (rotationModel ["u0", "u1"] MaxRetries (List.replicate 6 (RotOutcome.drop false))).2
        = RotExit.exhausted
    ∧ (3 : Nat) ≠ MaxRetries * 2 := by
  decide

/-- C2 amended: the rotation visits URLs in round-robin order — the attempt
with counter `k` (starting at 1) dials URL `(k - 1) % n` — but its budget is
`maxAttempts` total attempts across the whole set (absent recovery resets),
not `maxAttempts` full cycles of one attempt per URL. -/
theorem rotationCycles_amended (urls : List String) (hne : urls ≠ [])
    (maxR : Nat) (hmax : 1 ≤ maxR) (outs : List RotOutcome)
    (hall : ∀ o ∈ outs, o = RotOutcome.drop false) :
    rotationModel urls maxR outs
      = ((List.range (min maxR outs.length)).map
           (fun j => (⟨j + 1, j % urls.length⟩, RotOutcome.drop false)),
         if maxR ≤ outs.length then RotExit.exhausted else RotExit.fuelOut) := by
  have h := rotationGo_allFail urls.length maxR outs hall 1 (Nat.le_refl 1)
  rw [rotationModel, h]
  have hsub : maxR + 1 - 1 = maxR := by omega
  rw [hsub]
  simp only [Prod.mk.injEq, and_true]
  apply List.map_congr_left
  intro j _
  have hj : (1 : Nat) + j = j + 1 := by omega
  simp [hj]

/-- Witness for C2 amended at one URL, `maxAttempts = 1`, one failing
outcome. -/
theorem rotationCycles_amended_witness :
    rotationModel ["only"] 1 [RotOutcome.drop false]
      = ([(⟨1, 0⟩, RotOutcome.drop false)], RotExit.exhausted) :=
  rotationCycles_amended ["only"] (by decide) 1 (by decide) [RotOutcome.drop false] (by decide)

/-- The first attempt of a rotation run carries the counter the run was
entered with. -/
lemma rotationGo_head_rc (n maxR : Nat) (outs : List RotOutcome) (rc : Nat)
    (ev : RotEv × RotOutcome)
    (h : ((rotationGo n maxR outs rc).1)[0]? = some ev) :
    ev.1.rc = rc := by
  cases outs with
  | nil =>
    by_cases hrc : maxR < rc <;> simp [rotationGo, hrc] at h
  | cons o rest =>
    by_cases hrc : maxR < rc
    · simp [rotationGo, hrc] at h
    · cases o with
      | success =>
        simp [rotationGo, hrc] at h
        subst h
        rfl
      | canceled =>
        simp [rotationGo, hrc] at h
        subst h
        rfl
      | drop wp =>
        cases wp with
        | true =>
          simp [rotationGo, hrc] at h
          subst h
          rfl
        | false =>
          simp [rotationGo, hrc] at h
          subst h
          rfl

/-- C3: in `reconnectWithRotation`, an attempt whose stream reached
`Playing` and then dropped (`drop true`) resets the counter: the loop
continues exactly as a fresh rotation run — counter back to zero and
incremented to 1 for the next attempt, with the full `maxAttempts` budget —
and in every trace the attempt following a `drop true` carries
`retryCount = 1`. -/
theorem rotationReset_spec :
    (∀ (n maxR : Nat) (rest : List RotOutcome) (rc : Nat), rc ≤ maxR →
      rotationGo n maxR (RotOutcome.drop true :: rest) rc
        = ((⟨rc, (rc - 1) % n⟩, RotOutcome.drop true) :: (rotationGo n maxR rest 1).1,
           (rotationGo n maxR rest 1).2))
    ∧ (∀ (n maxR : Nat) (outs : List RotOutcome) (rc i : Nat)
        (ev1 ev2 : RotEv × RotOutcome),
        ((rotationGo n maxR outs rc).1)[i]? = some ev1 →
        ((rotationGo n maxR outs rc).1)[i + 1]? = some ev2 →
        ev1.2 = RotOutcome.drop true →
        ev2.1.rc = 1) := by
  constructor
  · intro n maxR rest rc hrc
    simp [rotationGo, Nat.not_lt.mpr hrc]
  · intro n maxR outs
    induction outs with
    | nil =>
      intro rc i ev1 ev2 h1 _h2 _hdrop
      by_cases hrc : maxR < rc <;> simp [rotationGo, hrc] at h1
    | cons o rest ih =>
      intro rc i ev1 ev2 h1 h2 hdrop
      by_cases hrc : maxR < rc
      · simp [rotationGo, hrc] at h1
      · cases o with
        | success =>
          have hexp : (rotationGo n maxR (RotOutcome.success :: rest) rc).1
              = [(⟨rc, (rc - 1) % n⟩, RotOutcome.success)] := by
            simp [rotationGo, hrc]
          rw [hexp] at h2
          simp at h2
        | canceled =>
          have hexp : (rotationGo n maxR (RotOutcome.canceled :: rest) rc).1
              = [(⟨rc, (rc - 1) % n⟩, RotOutcome.canceled)] := by
            simp [rotationGo, hrc]
          rw [hexp] at h2
          simp at h2
        | drop wp =>
          cases wp with
          | true =>
            have hexp : (rotationGo n maxR (RotOutcome.drop true :: rest) rc).1
                = (⟨rc, (rc - 1) % n⟩, RotOutcome.drop true)
                  :: (rotationGo n maxR rest 1).1 := by
              simp [rotationGo, hrc]
            rw [hexp] at h1 h2
            cases i with
            | zero =>
              simp only [List.getElem?_cons_succ] at h2
              exact rotationGo_head_rc n maxR rest 1 ev2 h2
            | succ i2 =>
              simp only [List.getElem?_cons_succ] at h1 h2
              exact ih 1 i2 ev1 ev2 h1 h2 hdrop
          | false =>
            have hexp : (rotationGo n maxR (RotOutcome.drop false :: rest) rc).1
                = (⟨rc, (rc - 1) % n⟩, RotOutcome.drop false)
                  :: (rotationGo n maxR rest (rc + 1)).1 := by
              simp [rotationGo, hrc]
            rw [hexp] at h1 h2
            cases i with
            | zero =>
              simp at h1
              rw [← h1] at hdrop
              simp at hdrop
            | succ i2 =>
              simp only [List.getElem?_cons_succ] at h1 h2
              exact ih (rc + 1) i2 ev1 ev2 h1 h2 hdrop

/-- Witness for C3: a `drop true` on the first rotation attempt (counter 3)
is followed by an attempt with counter 1. -/
theorem rotationReset_spec_witness :
    ((⟨1, 0⟩ : RotEv), RotOutcome.drop false).1.rc = 1 :=
  rotationReset_spec.2 2 3 [RotOutcome.drop true, RotOutcome.drop false] 3 0
    (⟨3, 0⟩, RotOutcome.drop true) (⟨1, 0⟩, RotOutcome.drop false)
    (by decide) (by decide) (by decide)

/-! ### Correctness of the `StreamTitle` scan (C7) -/

lemma isPrefixOf_append_self (p x : List Char) : p.isPrefixOf (p ++ x) = true := by
  induction p with
  | nil => simp [List.isPrefixOf]
  | cons a tl ih => simp [List.cons_append, List.isPrefixOf, ih]

/-- `strings.Index` returns the position of the first match: if `pat`
matches at `i` and at no earlier position, `subIndex` returns `i`. -/
lemma subIndex_eq_some (pat : List Char) :
    ∀ (i : Nat) (s : List Char),
      pat.isPrefixOf (s.drop i) = true →
      (∀ j, j < i → pat.isPrefixOf (s.drop j) = false) →
      subIndex pat s = some i := by
  intro i
  induction i with
  | zero =>
    intro s h1 _
    cases s with
    | nil =>
      cases pat with
      | nil => rfl
      | cons a tl => simp [List.isPrefixOf] at h1
    | cons c rest =>
      rw [List.drop_zero] at h1
      rw [subIndex, if_pos h1]
  | succ i ih =>
    intro s h1 h2
    have h0 := h2 0 (Nat.succ_pos i)
    rw [List.drop_zero] at h0
    cases s with
    | nil =>
      rw [List.drop_nil] at h1
      rw [h1] at h0
      simp at h0
    | cons c rest =>
      have hrec : subIndex pat rest = some i := by
        apply ih
        · simpa using h1
        · intro j hj
          have := h2 (j + 1) (by omega)
          simpa using this
      rw [subIndex, if_neg (by simp [h0]), hrec]
      rfl

/-- The scan of one metadata block: when the block is
`pre ++ "StreamTitle='" ++ t ++ "';" ++ post`, with no earlier occurrence of
the mark and no occurrence of `"';"` inside `t`, the published title is
exactly `t` — the substring between `StreamTitle='` and the next `';`. -/
lemma extractTitle_eq (pre t post : List Char)
    (ht : t ≠ [])
    (hfirst : ∀ j, j < pre.length →
        streamTitleMark.isPrefixOf
          ((pre ++ streamTitleMark ++ t ++ titleEndMark ++ post).drop j) = false)
    (hinner : ∀ j, j < t.length →
        titleEndMark.isPrefixOf ((t ++ titleEndMark ++ post).drop j) = false) :
    extractTitle (pre ++ streamTitleMark ++ t ++ titleEndMark ++ post) = some t := by
  have hassoc : pre ++ streamTitleMark ++ t ++ titleEndMark ++ post
      = (pre ++ streamTitleMark) ++ (t ++ (titleEndMark ++ post)) := by
    simp [List.append_assoc]
  have hdrop1 : (pre ++ streamTitleMark ++ t ++ titleEndMark ++ post).drop pre.length
      = streamTitleMark ++ (t ++ (titleEndMark ++ post)) := by
    rw [show pre ++ streamTitleMark ++ t ++ titleEndMark ++ post
        = pre ++ (streamTitleMark ++ (t ++ (titleEndMark ++ post))) by
      simp [List.append_assoc]]
    exact List.drop_left _ _
  have hidx1 : subIndex streamTitleMark
      (pre ++ streamTitleMark ++ t ++ titleEndMark ++ post) = some pre.length := by
    apply subIndex_eq_some
    · rw [hdrop1]
      exact isPrefixOf_append_self _ _
    · exact hfirst
  have hdrop2 : (pre ++ streamTitleMark ++ t ++ titleEndMark ++ post).drop
        (pre.length + streamTitleMark.length)
      = t ++ (titleEndMark ++ post) := by
    rw [hassoc, ← List.length_append]
    exact List.drop_left _ _
  have hidx2 : subIndex titleEndMark (t ++ (titleEndMark ++ post)) = some t.length := by
    apply subIndex_eq_some
    · rw [List.drop_left]
      exact isPrefixOf_append_self _ _
    · intro j hj
      have := hinner j hj
      simpa [List.append_assoc] using this
  have htpos : 0 < t.length := List.length_pos.mpr ht
  rw [extractTitle, hidx1]
  simp only [hdrop2, hidx2]
  rw [if_pos htpos, List.take_left]

/-- C7: for every metadata interval `N > 0` and every stream whose metadata
block at offset `N` (declared by the length byte as `16 * lenByte` bytes)
contains `StreamTitle='…';` — first occurrence of the mark after `pre`, the
title `t` free of the `';` terminator — the framing reader forwards the `N`
audio bytes, publishes exactly the substring `t` between `StreamTitle='`
and the next `';`, and `GetCurrentTrack()` then returns that title verbatim
(it is non-empty, so the waiting sentinel does not apply). -/
theorem metadataFraming_spec
    (icyN : Nat) (hN : 0 < icyN)
    (audio : List Char) (hA : audio.length = icyN)
    (lenByte : Char) (pre t post extra meta : List Char)
    (hm : meta = pre ++ streamTitleMark ++ t ++ titleEndMark ++ post)
    (ht : t ≠ [])
    (hlen : 16 * lenByte.toNat = meta.length)
    (hcap : meta.length ≤ 4080)
    (hfirst : ∀ j, j < pre.length →
        streamTitleMark.isPrefixOf (meta.drop j) = false)
    (hinner : ∀ j, j < t.length →
        titleEndMark.isPrefixOf ((t ++ titleEndMark ++ post).drop j) = false) :
    processChunk icyN (audio ++ lenByte :: (meta ++ extra)) [] = some (audio, t, extra)
    ∧ getCurrentTrackModel (String.mk t) = String.mk t := by
  constructor
  · have hml : 0 < meta.length := by
      rw [hm]
      simp [streamTitleMark]
    have hslen : (audio ++ lenByte :: (meta ++ extra)).length
        = icyN + 1 + meta.length + extra.length := by
      simp [hA]
      omega
    have htake : (audio ++ lenByte :: (meta ++ extra)).take icyN = audio := by
      rw [← hA]
      exact List.take_left _ _
    have hdrop : (audio ++ lenByte :: (meta ++ extra)).drop icyN
        = lenByte :: (meta ++ extra) := by
      rw [← hA]
      exact List.drop_left _ _
    have hex : extractTitle meta = some t := by
      rw [hm]
      exact extractTitle_eq pre t post ht (by rw [← hm]; exact hfirst) hinner
    rw [processChunk, if_neg (by omega), htake, hdrop]
    simp only [hlen]
    rw [if_neg (by omega), if_neg (by omega),
      if_neg (by rw [List.length_append]; omega), List.take_left, hex, List.drop_left]
  · have hne : String.mk t ≠ "" := by
      intro hEq
      exact ht (congrArg String.data hEq)
    simp [getCurrentTrackModel, hne]

/-- Concrete title and metadata block for the C7 witness: the block is
`StreamTitle='X - Y';` padded with spaces to 32 bytes (declared length
`2 * 16`). -/
def c7Title : List Char := "X - Y".toList

def c7Meta : List Char :=
  [] ++ streamTitleMark ++ c7Title ++ titleEndMark ++ "            ".toList

/-- Witness for C7: metadata interval 1, one audio byte, declared metadata
length 32; the reader publishes "X - Y" and `GetCurrentTrack` returns it. -/
theorem metadataFraming_spec_witness :
    processChunk 1 (['a'] ++ Char.ofNat 2 :: (c7Meta ++ ['z'])) [] = some (['a'], c7Title, ['z'])
    ∧ getCurrentTrackModel (String.mk c7Title) = String.mk c7Title :=
  metadataFraming_spec 1 (by decide) ['a'] rfl (Char.ofNat 2)
    [] c7Title ("            ".toList) ['z'] c7Meta rfl (by decide) (by decide)
    (by decide) (by decide) (by decide)

end SomaFM
